import Mathlib

/-!
Shallow embedding of `src/target_jsonl.py` (a Singer target that validates
records against per-stream JSON schemas and persists them, either appending
to local `.jsonl` files or buffering lines for a single object-storage put).

Modelling conventions:
* JSON values are the inductive `Json` below.  Input messages arrive already
  decoded (the line decoder `singer.parse_message` is an external capability
  per the spec; decode failures are outside the claims treated here).
* External capabilities that the script merely calls — `simplejson.dumps`,
  `Draft4Validator(...).validate`, `adjust_decimal_precision_for_schema`,
  `os.path.expanduser` — are fields of the `Externals` record, so theorems
  quantify over them.  A concrete model of the precision normalizer (needed
  for the idempotence claim) is given separately.
* Side effects (directory creation, file appends, the boto3 `put_object`
  call, the error/warning log lines that carry claim-relevant data, stdout
  writes) are recorded in order in an effect trace.  `logger.debug` calls
  carry no claim-relevant data and are not traced.
* Python truthiness of the optional string parameters (`custom_name`,
  `s3_bucket`, `s3_prefix`) is `pyFalsy`: both `None` and `""` are falsy.
* Exceptions become `Except` errors carrying the run state at raise time,
  so halting behaviour and already-performed effects are visible.
-/

namespace TargetJsonl

/-- JSON values (records, schema documents, state payloads). -/
inductive Json where
  | null : Json
  | bool (b : Bool) : Json
  | num (n : Int) : Json
  | str (s : String) : Json
  | arr (elems : List Json) : Json
  | obj (fields : List (String × Json)) : Json

/-- A decoded Singer message, as produced by `singer.parse_message(...).asdict()`:
the `type` field selects the variant; unknown types keep only their tag. -/
inductive Message where
  | schema (stream : String) (schemaDoc : Json) (keyProperties : List String) : Message
  | record (stream : String) (recordVal : Json) : Message
  | state (value : Json) : Message
  | other (tag : String) : Message

/-- Observable side effects of the script, in program order. -/
inductive Effect where
  | mkdirP (path : String) : Effect
  | fileAppend (path : String) (data : String) : Effect
  | putObject (body : String) (bucket : String) (key : String) : Effect
  | logValidationError (stream : String) : Effect
  | logUnknownType (tag : String) : Effect
  | stdoutWrite (line : String) : Effect
deriving DecidableEq

/-- The exceptions `persist_messages` can raise (plus the `KeyError` Python
would raise on a validators lookup miss, which the schema check makes
unreachable). -/
inductive RunError where
  | unknownStream (stream : String) : RunError
  | validationError (stream : String) : RunError
  | bucketMissing : RunError
  | prefixMissing : RunError
  | keyError (key : String) : RunError
deriving DecidableEq

/-- External capabilities consumed by the script (out of scope per the spec):
the JSON serializer, the compiled-validator check (given the schema document
the validator was compiled from and a record, does validation succeed?), the
precision normalizer from the `adjust_precision_for_schema` package, and
`os.path.expanduser`. -/
structure Externals where
  dumps : Json → String
  checkValid : Json → Json → Bool
  adjustSchema : Json → Json
  expanduser : String → String

/-- The configuration passed to `persist_messages` (in `main`, each field is
read from the config file with the defaults `destination_path=''`,
`custom_name=''`, `do_timestamp_file=True`, `write_to_s3=True`,
`s3_bucket=''`, `s3_pfx` models `s3_prefix=''`). -/
structure Config where
  destination_path : String
  custom_name : Option String
  do_timestamp_file : Bool
  write_to_s3 : Bool
  s3_bucket : Option String
  s3_pfx : Option String
deriving DecidableEq

/-- The mutable state of `persist_messages`: the `state` checkpoint, the three
per-stream dicts, the s3 buffer and tracked filename, plus the trace of
effects performed so far.  A validator is represented by the schema document
it was compiled from. -/
structure RunState where
  state : Option Json
  schemas : List (String × Json)
  validators : List (String × Json)
  key_properties : List (String × List String)
  s3_data_to_write : List String
  s3_file : String
  effects : List Effect

/-- Python dict lookup over our assoc-list model (latest binding wins). -/
def lookupA {β : Type} : List (String × β) → String → Option β
  | [], _ => none
  | (k', v) :: rest, k => if k' = k then some v else lookupA rest k

/-- Python dict assignment: cons the new binding (lookup takes the latest). -/
def setA {β : Type} (k : String) (v : β) (l : List (String × β)) :
    List (String × β) :=
  (k, v) :: l

/-- Python truthiness test `not x` for an optional string: `None` and the
empty string are falsy. -/
def pyFalsy : Option String → Bool
  | none => true
  | some s => s.isEmpty

/-- Python `a or b` for an optional string `a` and string `b`. -/
def pyOr : Option String → String → String
  | none, d => d
  | some s, d => if s.isEmpty then d else s

/-- Python `str(x)` where `x` is an optional string (an f-string renders
`None` as the text `None`). -/
def optStr : Option String → String
  | none => "None"
  | some s => s

/-- `os.path.join` for the two-component case used by the script (the
trailing-separator test looks at the last character directly). -/
def pathJoin (d : String) (f : String) : String :=
  if d.isEmpty then f
  else if d.data.getLast? = some (Char.ofNat 47) then d ++ f
  else d ++ "/" ++ f

/-- The single-quote character Python `repr` wraps strings in. -/
def quoteChar : Char := Char.ofNat 39

/-- Escape one character the way Python `repr` renders it inside a
single-quoted string literal (backslash, newline, carriage return, tab and
the quote character are escaped; printable characters pass through — the
strings the script buffers are serialized JSON plus a newline, so these are
the cases exercised). -/
def pyReprChar (c : Char) : String :=
  if c.toNat = 92 then "\\\\"
  else if c.toNat = 10 then "\\n"
  else if c.toNat = 13 then "\\r"
  else if c.toNat = 9 then "\\t"
  else if c.toNat = 39 then "\\" ++ String.singleton quoteChar
  else String.singleton c

/-- Python `repr` of a string (default single-quote form). -/
def pyReprStr (s : String) : String :=
  String.singleton quoteChar ++ String.join (s.data.map pyReprChar) ++
    String.singleton quoteChar

/-- Python `str` of a list of strings: bracketed, comma-separated reprs. -/
def pyStrOfList (xs : List String) : String :=
  "[" ++ String.intercalate ", " (xs.map pyReprStr) ++ "]"

/-- Python slicing `s[1:-1]`. -/
def pySlice1m1 (s : String) : String :=
  (s.drop 1).dropRight 1

/-- `timestamp_file_part` of `persist_messages`: the run timestamp is
computed once at start; `nowStr` stands for `datetime.now().strftime(...)`. -/
def timestamp_file_part (do_timestamp_file : Bool) (nowStr : String) : String :=
  if do_timestamp_file then "-" ++ nowStr else ""

/-- One iteration of the message loop of `persist_messages` (lines 50–102 of
`src/target_jsonl.py`), dispatching on the message type.  On an exception the
state at raise time is returned inside the error.

In the `SCHEMA` branch the source stores `o['schema']` in `schemas[stream]`,
mutates it in place via `adjust_decimal_precision_for_schema`, then compiles
`Draft4Validator(o['schema'])`; because `schemas[stream]` and `o['schema']`
alias the same object, both the registry entry and the validator see the
adjusted document, which the pure translation writes explicitly. -/
def step (ext : Externals) (cfg : Config) (tsPart : String)
    (st : RunState) (m : Message) : Except (RunError × RunState) RunState :=
  match m with
  | .record stream recordVal =>
      if (lookupA st.schemas stream).isNone then
        .error (.unknownStream stream, st)
      else
        match lookupA st.validators stream with
        | none => .error (.keyError stream, st)
        | some vdoc =>
          if ext.checkValid vdoc recordVal then
            let filename := pyOr cfg.custom_name stream ++ tsPart ++ ".jsonl"
            if cfg.write_to_s3 then
              if pyFalsy cfg.s3_bucket then
                .error (.bucketMissing, st)
              else if pyFalsy cfg.s3_pfx then
                .error (.prefixMissing, st)
              else
                .ok { st with
                  s3_data_to_write :=
                    st.s3_data_to_write ++ [ext.dumps recordVal ++ "\n"],
                  s3_file := filename }
            else
              let st1 :=
                if cfg.destination_path.isEmpty then st
                else { st with
                  effects := st.effects ++ [.mkdirP cfg.destination_path] }
              let path :=
                ext.expanduser (pathJoin cfg.destination_path filename)
              .ok { st1 with
                effects :=
                  st1.effects ++ [.fileAppend path (ext.dumps recordVal ++ "\n")],
                state := none }
          else
            .error (.validationError stream,
              { st with effects := st.effects ++ [.logValidationError stream] })
  | .state v => .ok { st with state := some v }
  | .schema stream schemaDoc keyProps =>
      let adjusted := ext.adjustSchema schemaDoc
      .ok { st with
        schemas := setA stream adjusted st.schemas,
        validators := setA stream adjusted st.validators,
        key_properties := setA stream keyProps st.key_properties }
  | .other tag => .ok { st with effects := st.effects ++ [.logUnknownType tag] }

/-- The message loop: fold `step` over the message list, halting at the first
exception. -/
def processList (ext : Externals) (cfg : Config) (tsPart : String) :
    RunState → List Message → Except (RunError × RunState) RunState
  | st, [] => .ok st
  | st, m :: rest =>
      match step ext cfg tsPart st m with
      | .error e => .error e
      | .ok st' => processList ext cfg tsPart st' rest

/-- The state `persist_messages` starts from. -/
def initState : RunState :=
  { state := none, schemas := [], validators := [], key_properties := [],
    s3_data_to_write := [], s3_file := "", effects := [] }

/-- `persist_messages` (lines 30–114): run the loop, then — unconditionally,
whatever strategy was selected — perform the trailing
`s3.put_object(Body=str(s3_data_to_write)[1:-1], Bucket=s3_bucket,
Key=f'...')` of lines 107–112, and return the final checkpoint `state`
together with the full run state. -/
def persist_messages (ext : Externals) (cfg : Config) (nowStr : String)
    (msgs : List Message) :
    Except (RunError × RunState) (Option Json × RunState) :=
  let tsPart := timestamp_file_part cfg.do_timestamp_file nowStr
  match processList ext cfg tsPart initState msgs with
  | .error e => .error e
  | .ok st =>
      let body := pySlice1m1 (pyStrOfList st.s3_data_to_write)
      let key := optStr cfg.s3_pfx ++ st.s3_file
      .ok (st.state,
        { st with effects :=
            st.effects ++ [.putObject body (optStr cfg.s3_bucket) key] })

/-- `emit_state` (lines 21–26): print the serialized state followed by a
newline iff it is not `None`. -/
def emit_state (ext : Externals) (state : Option Json) : List Effect :=
  match state with
  | none => []
  | some v => [.stdoutWrite (ext.dumps v ++ "\n")]

/-- The `putObject` effects contained in a trace (used to observe how many
object-storage writes a run performed and with what bodies). -/
def putBodies : List Effect → List String
  | [] => []
  | .putObject b _ _ :: rest => b :: putBodies rest
  | _ :: rest => putBodies rest

/-- Does a schema value declare a numeric type (`"number"` or `"integer"`)? -/
def isNumTypeVal : Json → Bool
  | .str s => decide (s = "number" ∨ s = "integer")
  | _ => false

/-- Is a schema key one of the precision/format constraint keys the
normalizer rewrites? -/
def precisionKey (k : String) : Bool :=
  decide (k = "multipleOf" ∨ k = "format")

/-- Does an object node declare a numeric type via its `type` entry? -/
def declaresNumericType : List (String × Json) → Bool
  | [] => false
  | (k, v) :: rest =>
      (decide (k = "type") && isNumTypeVal v) || declaresNumericType rest

/-- Modelled from the spec: the "single canonical decimal-precision policy"
value the normalizer rewrites precision/format constraints to. -/
def canonicalPrecision : Json := Json.str ("decimal-canonical")

mutual

/-- Modelled from the spec: `adjust_decimal_precision_for_schema` from the
external `adjust_precision_for_schema` package (its code is not under
`src/`; only the call site at line 98 is).  Per the spec it "walks the schema
document and, for every node declaring a numeric type, rewrites its
precision/format constraints to a single canonical decimal-precision
policy". -/
def adjust_decimal_precision_for_schema : Json → Json
  | .arr elems => .arr (adjustElems elems)
  | .obj fields => .obj (adjustFields (declaresNumericType fields) fields)
  | j => j

/-- Walk the elements of an array node. -/
def adjustElems : List Json → List Json
  | [] => []
  | x :: xs => adjust_decimal_precision_for_schema x :: adjustElems xs

/-- Walk the entries of an object node; when the node declares a numeric
type, its precision/format entries are rewritten to the canonical policy. -/
def adjustFields : Bool → List (String × Json) → List (String × Json)
  | _, [] => []
  | numeric, (k, v) :: rest =>
      (k, if numeric && precisionKey k then canonicalPrecision
          else adjust_decimal_precision_for_schema v) :: adjustFields numeric rest

end

/-- The schema document of the last `SCHEMA` message for stream `S` in a
message list, if any (later registrations win). -/
def lastSchemaDoc : List Message → String → Option Json
  | [], _ => none
  | m :: rest, S =>
      match lastSchemaDoc rest S with
      | some d => some d
      | none =>
          match m with
          | .schema S' doc _ => if S' = S then some doc else none
          | _ => none

/-- A concrete instantiation of the external capabilities, used to evaluate
runs at concrete inputs: integers serialize to their decimal text, validation
always succeeds, the normalizer and `expanduser` are identities. -/
def extC : Externals :=
  { dumps := fun j => match j with | .num n => toString n | _ => "null",
    checkValid := fun _ _ => true,
    adjustSchema := fun j => j,
    expanduser := fun p => p }

/-- Like `extC` but validation always fails. -/
def extReject : Externals :=
  { extC with checkValid := fun _ _ => false }

/-- An object-storage configuration with bucket and key-prefix set. -/
def cfgS3 : Config :=
  { destination_path := "", custom_name := none, do_timestamp_file := false,
    write_to_s3 := true, s3_bucket := some ("b"), s3_pfx := some ("p/") }

/-- `cfgS3` with an empty bucket. -/
def cfgS3NoBucket : Config :=
  { cfgS3 with s3_bucket := some ("") }

/-- A local (Local-Append) configuration: `write_to_s3` off, a destination
directory set. -/
def cfgLocal : Config :=
  { destination_path := "d", custom_name := none, do_timestamp_file := false,
    write_to_s3 := false, s3_bucket := some (""), s3_pfx := some ("") }

/-- The configuration `main` builds from an empty config file: every string
defaults to `''` and the booleans to `True`. -/
def cfgDefault : Config :=
  { destination_path := "", custom_name := some (""), do_timestamp_file := true,
    write_to_s3 := true, s3_bucket := some (""), s3_pfx := some ("") }

/-- A trivial schema document for concrete runs. -/
def docU : Json := Json.obj []

/-- Concrete input: one schema for `users`, then two records. -/
def msgsTwoRecords : List Message :=
  [ Message.schema ("users") docU [],
    Message.record ("users") (Json.num 1),
    Message.record ("users") (Json.num 2) ]

/-- `cfgS3` with an empty key prefix. -/
def cfgS3NoPfx : Config :=
  { cfgS3 with s3_pfx := some ("") }

/-- The run state after registering the `users` schema under `extC` (whose
normalizer is the identity). -/
def stUsers : RunState :=
  { initState with
    schemas := [(("users"), docU)],
    validators := [(("users"), docU)],
    key_properties := [(("users"), [])] }

/-- The effect trace of a whole `persist_messages` run (whether it returns
or raises). -/
def runEffects (ext : Externals) (cfg : Config) (nowStr : String)
    (msgs : List Message) : List Effect :=
  match persist_messages ext cfg nowStr msgs with
  | .ok (_, rs) => rs.effects
  | .error (_, rs) => rs.effects

/-- The bodies of the object-storage puts a whole run performs. -/
def runPutBodies (ext : Externals) (cfg : Config) (nowStr : String)
    (msgs : List Message) : List String :=
  putBodies (runEffects ext cfg nowStr msgs)

/-! ### Theorems -/

theorem isNumTypeVal_adjust (j : Json) :
    isNumTypeVal (adjust_decimal_precision_for_schema j) = isNumTypeVal j := by
  cases j <;> simp [adjust_decimal_precision_for_schema, isNumTypeVal]

theorem declaresNumericType_adjustFields (b : Bool) (l : List (String × Json)) :
    declaresNumericType (adjustFields b l) = declaresNumericType l := by
  induction l with
  | nil => simp [adjustFields]
  | cons hd tl ih =>
      obtain ⟨k, v⟩ := hd
      by_cases hk : k = "type"
      · subst hk
        have hpk : precisionKey ("type") = false := by decide
        simp [adjustFields, declaresNumericType, hpk, isNumTypeVal_adjust, ih]
      · simp [adjustFields, declaresNumericType, hk, ih]

mutual

theorem adjust_idem : (j : Json) →
    adjust_decimal_precision_for_schema (adjust_decimal_precision_for_schema j) =
      adjust_decimal_precision_for_schema j
  | .null => rfl
  | .bool _ => rfl
  | .num _ => rfl
  | .str _ => rfl
  | .arr elems => by
      simp only [adjust_decimal_precision_for_schema]
      exact congrArg Json.arr (adjustElems_idem elems)
  | .obj fields => by
      simp only [adjust_decimal_precision_for_schema]
      rw [declaresNumericType_adjustFields]
      exact congrArg Json.obj (adjustFields_idem (declaresNumericType fields) fields)

theorem adjustElems_idem : (l : List Json) →
    adjustElems (adjustElems l) = adjustElems l
  | [] => rfl
  | x :: xs => by
      simp only [adjustElems]
      rw [adjust_idem x, adjustElems_idem xs]

theorem adjustFields_idem : (b : Bool) → (l : List (String × Json)) →
    adjustFields b (adjustFields b l) = adjustFields b l
  | _, [] => rfl
  | b, (k, v) :: rest => by
      simp only [adjustFields]
      by_cases h : (b && precisionKey k) = true
      · simp only [if_pos h, adjustFields_idem b rest]
      · simp only [if_neg h]
        rw [adjust_idem v, adjustFields_idem b rest]

end

/-- Claim C9: the precision normalization of schema documents is idempotent:
for every schema document `s`,
`adjust_decimal_precision_for_schema (adjust_decimal_precision_for_schema s)`
equals `adjust_decimal_precision_for_schema s`. -/
theorem C9_adjust_decimal_precision_idempotent (s : Json) :
    adjust_decimal_precision_for_schema (adjust_decimal_precision_for_schema s) =
      adjust_decimal_precision_for_schema s :=
  adjust_idem s

theorem lastSchemaDoc_cons_record (S' : String) (r : Json) (rest : List Message)
    (S : String) :
    lastSchemaDoc (Message.record S' r :: rest) S = lastSchemaDoc rest S := by
  simp only [lastSchemaDoc]
  cases lastSchemaDoc rest S <;> rfl

theorem lastSchemaDoc_cons_state (v : Json) (rest : List Message) (S : String) :
    lastSchemaDoc (Message.state v :: rest) S = lastSchemaDoc rest S := by
  simp only [lastSchemaDoc]
  cases lastSchemaDoc rest S <;> rfl

theorem lastSchemaDoc_cons_other (tag : String) (rest : List Message) (S : String) :
    lastSchemaDoc (Message.other tag :: rest) S = lastSchemaDoc rest S := by
  simp only [lastSchemaDoc]
  cases lastSchemaDoc rest S <;> rfl

theorem lastSchemaDoc_cons_schema (S' : String) (doc : Json)
    (kps : List String) (rest : List Message) (S : String) :
    lastSchemaDoc (Message.schema S' doc kps :: rest) S =
      match lastSchemaDoc rest S with
      | some d => some d
      | none => if S' = S then some doc else none := rfl

theorem step_record_ok (ext : Externals) (cfg : Config) (ts : String)
    (st : RunState) (S : String) (r : Json) (st' : RunState)
    (h : step ext cfg ts st (Message.record S r) = .ok st') :
    st'.schemas = st.schemas ∧ st'.validators = st.validators ∧
      st'.key_properties = st.key_properties := by
  simp only [step] at h
  split at h
  · cases h
  · split at h
    · cases h
    · split at h
      · split at h
        · split at h
          · cases h
          · split at h
            · cases h
            · cases h
              exact ⟨rfl, rfl, rfl⟩
        · by_cases hd : cfg.destination_path.isEmpty
          · simp only [hd, if_true] at h
            cases h
            exact ⟨rfl, rfl, rfl⟩
          · simp only [hd, Bool.false_eq_true, if_false] at h
            cases h
            exact ⟨rfl, rfl, rfl⟩
      · cases h

theorem processList_append (ext : Externals) (cfg : Config) (ts : String)
    (a : List Message) :
    ∀ (st : RunState) (b : List Message),
    processList ext cfg ts st (a ++ b) =
      match processList ext cfg ts st a with
      | .error e => .error e
      | .ok st' => processList ext cfg ts st' b := by
  induction a with
  | nil => intro st b; rfl
  | cons m rest ih =>
      intro st b
      simp only [List.cons_append, processList]
      cases step ext cfg ts st m with
      | error e => rfl
      | ok st1 => exact ih st1 b

theorem processList_registry (ext : Externals) (cfg : Config) (ts : String)
    (msgs : List Message) :
    ∀ (st st' : RunState),
    processList ext cfg ts st msgs = .ok st' → ∀ S,
    (lookupA st'.schemas S = (match lastSchemaDoc msgs S with
       | some d => some (ext.adjustSchema d)
       | none => lookupA st.schemas S)) ∧
    (lookupA st'.validators S = (match lastSchemaDoc msgs S with
       | some d => some (ext.adjustSchema d)
       | none => lookupA st.validators S)) := by
  induction msgs with
  | nil =>
      intro st st' h S
      simp only [processList] at h
      cases h
      exact ⟨rfl, rfl⟩
  | cons m rest ih =>
      intro st st' h S
      simp only [processList] at h
      cases hstep : step ext cfg ts st m with
      | error e => rw [hstep] at h; cases h
      | ok st1 =>
          rw [hstep] at h
          have hr := ih st1 st' h S
          cases m with
          | record S' r =>
              obtain ⟨hs, hv, _⟩ := step_record_ok ext cfg ts st S' r st1 hstep
              rw [lastSchemaDoc_cons_record]
              rw [hs, hv] at hr
              exact hr
          | state v =>
              simp only [step] at hstep
              cases hstep
              rw [lastSchemaDoc_cons_state]
              exact hr
          | other tag =>
              simp only [step] at hstep
              cases hstep
              rw [lastSchemaDoc_cons_other]
              exact hr
          | schema S' doc kps =>
              simp only [step] at hstep
              cases hstep
              rw [lastSchemaDoc_cons_schema]
              cases hl : lastSchemaDoc rest S with
              | some d =>
                  rw [hl] at hr
                  exact hr
              | none =>
                  rw [hl] at hr
                  by_cases hS : S' = S
                  · simp only [hS, if_pos]
                    simp only [setA, lookupA, hS, if_pos] at hr
                    exact hr
                  · simp only [hS, if_neg, if_false]
                    simp only [setA, lookupA, hS, if_neg, if_false] at hr
                    exact hr

/-- Claim C4: a `RECORD` message for a stream `S` processed before any
`SCHEMA` message for `S` has been registered raises the fatal
unknown-stream error and halts processing: the remaining messages are not
dispatched and the run state (in particular its effect trace — so no
destination artifact) is exactly the state reached before the record. -/
theorem C4_record_before_schema_halts (ext : Externals) (cfg : Config)
    (ts : String) (pre : List Message) (S : String) (r : Json)
    (post : List Message) (st : RunState)
    (hpre : processList ext cfg ts initState pre = .ok st)
    (hnos : lastSchemaDoc pre S = none) :
    processList ext cfg ts initState (pre ++ (Message.record S r :: post)) =
      .error (RunError.unknownStream S, st) := by
  have hlook : lookupA st.schemas S = none := by
    have h := (processList_registry ext cfg ts pre initState st hpre S).1
    rw [hnos] at h
    exact h
  rw [processList_append, hpre]
  simp only [processList, step, hlook, Option.isNone_none, if_pos]

/-- Witness for C4: with no messages before it, a record for `orders` makes
the run fail with the unknown-stream error in the initial state. -/
theorem C4_record_before_schema_halts_witness :
    processList extC cfgS3 ("") initState [] = .ok initState ∧
    lastSchemaDoc [] ("orders") = none ∧
    processList extC cfgS3 ("") initState
      ([] ++ (Message.record ("orders") Json.null :: [])) =
      .error (RunError.unknownStream ("orders"), initState) :=
  ⟨rfl, rfl,
    C4_record_before_schema_halts extC cfgS3 ("") [] ("orders") Json.null []
      initState rfl rfl⟩

/-- Claim C6: a record that fails validation halts the run with the fatal
validation error after logging the offending stream name; the remaining
messages are not dispatched, and the effects performed so far (earlier
appends included) remain in place — the error state is the prior state with
only the log line appended. -/
theorem C6_validation_error_halts (ext : Externals) (cfg : Config)
    (ts : String) (pre : List Message) (S : String) (r : Json)
    (post : List Message) (st : RunState) (vdoc : Json)
    (hpre : processList ext cfg ts initState pre = .ok st)
    (hsch : (lookupA st.schemas S).isNone = false)
    (hv : lookupA st.validators S = some vdoc)
    (hbad : ext.checkValid vdoc r = false) :
    processList ext cfg ts initState (pre ++ (Message.record S r :: post)) =
      .error (RunError.validationError S,
        { st with effects := st.effects ++ [Effect.logValidationError S] }) := by
  rw [processList_append, hpre]
  simp only [processList, step, hsch, hv, hbad, Bool.false_eq_true, if_false]

/-- Witness for C6: after registering the `users` schema, a record rejected
by the validator halts the run with the validation error and the logged
stream name. -/
theorem C6_validation_error_halts_witness :
    processList extReject cfgLocal ("") initState
      [Message.schema ("users") docU []] = .ok stUsers ∧
    (lookupA stUsers.schemas ("users")).isNone = false ∧
    lookupA stUsers.validators ("users") = some docU ∧
    extReject.checkValid docU (Json.num 1) = false ∧
    processList extReject cfgLocal ("") initState
      ([Message.schema ("users") docU []] ++
        (Message.record ("users") (Json.num 1) :: [])) =
      .error (RunError.validationError ("users"),
        { stUsers with
          effects := stUsers.effects ++ [Effect.logValidationError ("users")] }) :=
  ⟨rfl, rfl, rfl, rfl,
    C6_validation_error_halts extReject cfgLocal ("")
      [Message.schema ("users") docU []] ("users") (Json.num 1) [] stUsers docU
      rfl rfl rfl rfl⟩

/-- Claim C8: after any successful run prefix, the validator registered for a
stream `S` was compiled from the schema document most recently registered
for `S` with the precision normalization applied to it exactly once
(`Option.map ext.adjustSchema`, not twice, whatever the normalizer is), and
the schema registry holds that same normalized document; this covers
repeated registrations, since `lastSchemaDoc` takes the latest one. -/
theorem C8_validator_from_latest_normalized_schema (ext : Externals)
    (cfg : Config) (ts : String) (msgs : List Message) (st : RunState)
    (h : processList ext cfg ts initState msgs = .ok st) (S : String) :
    lookupA st.validators S = Option.map ext.adjustSchema (lastSchemaDoc msgs S) ∧
    lookupA st.schemas S = Option.map ext.adjustSchema (lastSchemaDoc msgs S) := by
  obtain ⟨hs, hv⟩ := processList_registry ext cfg ts msgs initState st h S
  cases hl : lastSchemaDoc msgs S with
  | some d =>
      rw [hl] at hs hv
      exact ⟨hv, hs⟩
  | none =>
      rw [hl] at hs hv
      exact ⟨hv, hs⟩

/-- Witness for C8: registering `users` twice leaves the validator compiled
from the second document. -/
theorem C8_validator_from_latest_normalized_schema_witness :
    processList extC cfgS3 ("") initState
      [Message.schema ("users") docU [],
       Message.schema ("users") (Json.num 7) []] =
      .ok { initState with
        schemas := [(("users"), Json.num 7), (("users"), docU)],
        validators := [(("users"), Json.num 7), (("users"), docU)],
        key_properties := [(("users"), []), (("users"), [])] } ∧
    lookupA ({ initState with
        schemas := [(("users"), Json.num 7), (("users"), docU)],
        validators := [(("users"), Json.num 7), (("users"), docU)],
        key_properties := [(("users"), []), (("users"), [])] } : RunState).validators
        ("users") =
      Option.map extC.adjustSchema
        (lastSchemaDoc
          [Message.schema ("users") docU [],
           Message.schema ("users") (Json.num 7) []] ("users")) :=
  ⟨rfl,
    (C8_validator_from_latest_normalized_schema extC cfgS3 ("")
      [Message.schema ("users") docU [],
       Message.schema ("users") (Json.num 7) []] _ rfl ("users")).1⟩

theorem step_keeps_none (ext : Externals) (cfg : Config) (ts : String)
    (st : RunState) (m : Message) (st' : RunState)
    (hm : ∀ v : Json, m ≠ Message.state v)
    (hs : st.state = none)
    (h : step ext cfg ts st m = .ok st') : st'.state = none := by
  cases m with
  | record S r =>
      simp only [step] at h
      split at h
      · cases h
      · split at h
        · cases h
        · split at h
          · split at h
            · split at h
              · cases h
              · split at h
                · cases h
                · cases h
                  exact hs
            · cases h
              rfl
          · cases h
  | state v => exact absurd rfl (hm v)
  | schema S doc kps =>
      simp only [step] at h
      cases h
      exact hs
  | other tag =>
      simp only [step] at h
      cases h
      exact hs

theorem processList_keeps_none (ext : Externals) (cfg : Config) (ts : String)
    (msgs : List Message) :
    ∀ (st st' : RunState),
    (∀ v : Json, Message.state v ∉ msgs) → st.state = none →
    processList ext cfg ts st msgs = .ok st' → st'.state = none := by
  induction msgs with
  | nil =>
      intro st st' _ hs h
      simp only [processList] at h
      cases h
      exact hs
  | cons m rest ih =>
      intro st st' hns hs h
      simp only [processList] at h
      cases hstep : step ext cfg ts st m with
      | error e => rw [hstep] at h; cases h
      | ok st1 =>
          rw [hstep] at h
          have hm : ∀ v : Json, m ≠ Message.state v := by
            intro v hv
            exact hns v (by rw [hv]; exact List.mem_cons_self _ _)
          have hs1 := step_keeps_none ext cfg ts st m st1 hm hs hstep
          exact ih st1 st' (fun v hv => hns v (List.mem_cons_of_mem m hv)) hs1 h

/-- Claim C5: the checkpoint-clearing rule is per strategy: a successful
record append under Local-Append (`write_to_s3` off) sets the checkpoint to
`none`, and it stays `none` until a later `STATE` message arrives — any
continuation of the run containing no `STATE` message (further records,
schema registrations, unknown message types) leaves it `none`; under
Buffered-Put (`write_to_s3` on) appending a record leaves the checkpoint
unchanged; and under any configuration a `STATE` message replaces the
checkpoint wholesale. -/
theorem C5_checkpoint_rule_per_strategy (ext : Externals) (ts : String)
    (st : RunState) (S : String) (r v : Json) (cfgL cfgS : Config)
    (st₁ st₂ : RunState)
    (hL : cfgL.write_to_s3 = false)
    (hS3 : cfgS.write_to_s3 = true)
    (h1 : step ext cfgL ts st (Message.record S r) = .ok st₁)
    (h2 : step ext cfgS ts st (Message.record S r) = .ok st₂) :
    st₁.state = none ∧ st₂.state = st.state ∧
      (∀ cfg : Config,
        step ext cfg ts st (Message.state v) = .ok { st with state := some v }) ∧
      ∀ (msgs : List Message) (st₃ : RunState),
        (∀ w : Json, Message.state w ∉ msgs) →
        processList ext cfgL ts st₁ msgs = .ok st₃ → st₃.state = none := by
  have h1n : st₁.state = none := by
    simp only [step, hL, Bool.false_eq_true, if_false] at h1
    split at h1
    · cases h1
    · split at h1
      · cases h1
      · split at h1
        · cases h1
          rfl
        · cases h1
  have h2p : st₂.state = st.state := by
    simp only [step, hS3, if_true] at h2
    split at h2
    · cases h2
    · split at h2
      · cases h2
      · split at h2
        · split at h2
          · cases h2
          · split at h2
            · cases h2
            · cases h2
              rfl
        · cases h2
  exact ⟨h1n, h2p, fun cfg => rfl,
    fun msgs st₃ hns h3 =>
      processList_keeps_none ext cfgL ts msgs st₁ st₃ hns h1n h3⟩

/-- Witness for C5: with the `users` schema registered, a local append
clears the checkpoint, an s3-buffered append leaves it unchanged, a
`STATE` message replaces it, and after the local append the checkpoint is
still `none` once a further schema registration, an unknown-type message
and another local append have been processed. -/
theorem C5_checkpoint_rule_per_strategy_witness :
    cfgLocal.write_to_s3 = false ∧ cfgS3.write_to_s3 = true ∧
    ({ stUsers with
        effects := [Effect.mkdirP ("d"), Effect.fileAppend ("d/users.jsonl") ("1\n")],
        state := none } : RunState).state = none ∧
    ({ stUsers with
        s3_data_to_write := ["1\n"], s3_file := "users.jsonl" } : RunState).state =
      stUsers.state ∧
    step extC cfgS3 ("") stUsers (Message.state Json.null) =
      .ok { stUsers with state := some Json.null } ∧
    ({ state := none,
       schemas := [(("users"), docU), (("users"), docU)],
       validators := [(("users"), docU), (("users"), docU)],
       key_properties := [(("users"), []), (("users"), [])],
       s3_data_to_write := [], s3_file := "",
       effects := [Effect.mkdirP ("d"), Effect.fileAppend ("d/users.jsonl") ("1\n"),
         Effect.logUnknownType ("X"), Effect.mkdirP ("d"),
         Effect.fileAppend ("d/users.jsonl") ("2\n")] } : RunState).state = none :=
  ⟨rfl, rfl,
    (C5_checkpoint_rule_per_strategy extC ("") stUsers ("users") (Json.num 1)
      Json.null cfgLocal cfgS3 _ _ rfl rfl rfl rfl).1,
    (C5_checkpoint_rule_per_strategy extC ("") stUsers ("users") (Json.num 1)
      Json.null cfgLocal cfgS3 _ _ rfl rfl rfl rfl).2.1,
    (C5_checkpoint_rule_per_strategy extC ("") stUsers ("users") (Json.num 1)
      Json.null cfgLocal cfgS3 _ _ rfl rfl rfl rfl).2.2.1 cfgS3,
    (C5_checkpoint_rule_per_strategy extC ("") stUsers ("users") (Json.num 1)
      Json.null cfgLocal cfgS3 _ _ rfl rfl rfl rfl).2.2.2
      [Message.schema ("users") docU [], Message.other ("X"),
       Message.record ("users") (Json.num 2)] _
      (by intro w hw; simp at hw) rfl⟩

/-- Counterexample for C2: with `write_to_s3` on and an empty bucket, the
run `[SCHEMA users, RECORD ...]` does raise the configuration error — but
only after the `SCHEMA` message has been read and dispatched: the error
state carries the registered schema, so it is not the case that no message
is processed before the error. -/
theorem C2_schema_dispatched_before_config_error :
    processList extC cfgS3NoBucket ("") initState msgsTwoRecords =
      .error (RunError.bucketMissing, stUsers) ∧
    stUsers.schemas ≠ initState.schemas := by
  refine ⟨rfl, ?_⟩
  simp [stUsers, initState]

/-- Claim C2 as amended: when `write_to_s3` is on and `s3_bucket`
(respectively, a set bucket but an empty `s3_prefix`) is empty, the
configuration error is raised at the first `RECORD` message whose stream
has a registered schema and whose record validates — before that record is
buffered and before any later message is dispatched (the error state is
exactly the prior state); messages before that record are processed
normally, as the counterexample shows. -/
theorem C2_config_error_at_first_record (ext : Externals) (ts : String)
    (st : RunState) (S : String) (r : Json) (rest : List Message)
    (vdoc : Json) (cfgB cfgP : Config)
    (hwB : cfgB.write_to_s3 = true)
    (hbB : pyFalsy cfgB.s3_bucket = true)
    (hwP : cfgP.write_to_s3 = true)
    (hbP : pyFalsy cfgP.s3_bucket = false)
    (hpP : pyFalsy cfgP.s3_pfx = true)
    (hsch : (lookupA st.schemas S).isNone = false)
    (hv : lookupA st.validators S = some vdoc)
    (hok : ext.checkValid vdoc r = true) :
    processList ext cfgB ts st (Message.record S r :: rest) =
      .error (RunError.bucketMissing, st) ∧
    processList ext cfgP ts st (Message.record S r :: rest) =
      .error (RunError.prefixMissing, st) := by
  constructor
  · simp only [processList, step, hsch, hv, hok, hwB, hbB, Bool.false_eq_true,
      if_false, if_true]
  · simp only [processList, step, hsch, hv, hok, hwP, hbP, hpP,
      Bool.false_eq_true, if_false, if_true]

/-- Witness for the amended C2: with the `users` schema registered, the
first record raises the bucket error when the bucket is empty, and the
key-prefix error when only the prefix is empty. -/
theorem C2_config_error_at_first_record_witness :
    cfgS3NoBucket.write_to_s3 = true ∧ pyFalsy cfgS3NoBucket.s3_bucket = true ∧
    cfgS3NoPfx.write_to_s3 = true ∧ pyFalsy cfgS3NoPfx.s3_bucket = false ∧
    pyFalsy cfgS3NoPfx.s3_pfx = true ∧
    processList extC cfgS3NoBucket ("") stUsers
      (Message.record ("users") (Json.num 1) :: []) =
      .error (RunError.bucketMissing, stUsers) ∧
    processList extC cfgS3NoPfx ("") stUsers
      (Message.record ("users") (Json.num 1) :: []) =
      .error (RunError.prefixMissing, stUsers) :=
  ⟨rfl, rfl, rfl, rfl, rfl,
    (C2_config_error_at_first_record extC ("") stUsers ("users") (Json.num 1)
      [] docU cfgS3NoBucket cfgS3NoPfx rfl rfl rfl rfl rfl rfl rfl rfl).1,
    (C2_config_error_at_first_record extC ("") stUsers ("users") (Json.num 1)
      [] docU cfgS3NoBucket cfgS3NoPfx rfl rfl rfl rfl rfl rfl rfl rfl).2⟩

theorem pyOr_some_empty : pyOr (some ("")) = pyOr none := by
  funext d
  have h : ("").isEmpty = true := by decide
  simp [pyOr, h]

theorem step_config_congr (ext : Externals) (ts : String) (c1 c2 : Config)
    (hdp : c1.destination_path = c2.destination_path)
    (hcn : pyOr c1.custom_name = pyOr c2.custom_name)
    (hw : c1.write_to_s3 = c2.write_to_s3)
    (hb : c1.s3_bucket = c2.s3_bucket)
    (hp : c1.s3_pfx = c2.s3_pfx) :
    ∀ (st : RunState) (m : Message), step ext c1 ts st m = step ext c2 ts st m := by
  intro st m
  cases m <;> simp only [step, hdp, hcn, hw, hb, hp]

theorem processList_config_congr (ext : Externals) (ts : String)
    (c1 c2 : Config)
    (hdp : c1.destination_path = c2.destination_path)
    (hcn : pyOr c1.custom_name = pyOr c2.custom_name)
    (hw : c1.write_to_s3 = c2.write_to_s3)
    (hb : c1.s3_bucket = c2.s3_bucket)
    (hp : c1.s3_pfx = c2.s3_pfx)
    (msgs : List Message) :
    ∀ st : RunState, processList ext c1 ts st msgs = processList ext c2 ts st msgs := by
  induction msgs with
  | nil => intro st; rfl
  | cons m rest ih =>
      intro st
      simp only [processList, step_config_congr ext ts c1 c2 hdp hcn hw hb hp st m]
      cases step ext c2 ts st m with
      | error e => rfl
      | ok st1 => exact ih st1

theorem persist_messages_config_congr (ext : Externals) (c1 c2 : Config)
    (hdp : c1.destination_path = c2.destination_path)
    (hcn : pyOr c1.custom_name = pyOr c2.custom_name)
    (hdts : c1.do_timestamp_file = c2.do_timestamp_file)
    (hw : c1.write_to_s3 = c2.write_to_s3)
    (hb : c1.s3_bucket = c2.s3_bucket)
    (hp : c1.s3_pfx = c2.s3_pfx)
    (nowStr : String) (msgs : List Message) :
    persist_messages ext c1 nowStr msgs = persist_messages ext c2 nowStr msgs := by
  simp only [persist_messages, hdts, hb, hp]
  rw [processList_config_congr ext (timestamp_file_part c2.do_timestamp_file nowStr)
    c1 c2 hdp hcn hw hb hp msgs initState]

/-- Claim C10: an empty-string `custom_name` behaves exactly like an absent
one: the whole run of `persist_messages` is unchanged when `custom_name`
goes from `some ""` to `none`, and for every record the output filename is
built from the stream name (`streamName ++ timestampPart ++ ".jsonl"`),
never from the empty string. -/
theorem C10_empty_custom_name_like_absent (ext : Externals) (nowStr : String)
    (msgs : List Message) (dp : String) (dts wts : Bool) (b p : Option String) :
    persist_messages ext
      { destination_path := dp, custom_name := some (""), do_timestamp_file := dts,
        write_to_s3 := wts, s3_bucket := b, s3_pfx := p } nowStr msgs =
    persist_messages ext
      { destination_path := dp, custom_name := none, do_timestamp_file := dts,
        write_to_s3 := wts, s3_bucket := b, s3_pfx := p } nowStr msgs ∧
    ∀ tsPart S : String,
      pyOr (some ("")) S ++ tsPart ++ ".jsonl" = S ++ tsPart ++ ".jsonl" := by
  constructor
  · exact persist_messages_config_congr ext
      { destination_path := dp, custom_name := some (""), do_timestamp_file := dts,
        write_to_s3 := wts, s3_bucket := b, s3_pfx := p }
      { destination_path := dp, custom_name := none, do_timestamp_file := dts,
        write_to_s3 := wts, s3_bucket := b, s3_pfx := p }
      rfl pyOr_some_empty rfl rfl rfl rfl nowStr msgs
  · intro tsPart S
    rw [pyOr_some_empty]
    rfl

/-- Claim C1 (refuted — code bug): by the spec, the single `put_object`
body should be the concatenation `dumps(r1)+"\n" ++ dumps(r2)+"\n"`; the
code instead uploads `str(s3_data_to_write)[1:-1]`, i.e. the Python reprs
of the buffered lines joined by a comma and space, with quotes and escaped
newlines.  Evaluated at a run with two records serializing to `1` and `2`,
the one put body is the repr join, which differs from the concatenation. -/
theorem C1_put_body_is_reprs_not_concatenation :
    runPutBodies extC cfgS3 ("") msgsTwoRecords =
      [pyReprStr ("1\n") ++ ", " ++ pyReprStr ("2\n")] ∧
    pyReprStr ("1\n") ++ ", " ++ pyReprStr ("2\n") ≠
      extC.dumps (Json.num 1) ++ "\n" ++ (extC.dumps (Json.num 2) ++ "\n") := by
  refine ⟨rfl, ?_⟩
  decide

/-- Claim C3 (refuted — code bug): under Local-Append (`write_to_s3` off)
finalize should be a no-op, but the `put_object` call at lines 107–112 is
outside the `write_to_s3` branch and runs unconditionally: a purely local
run still ends with an object-storage put (with empty body, bucket and
key). -/
theorem C3_local_run_still_calls_put_object :
    runEffects extC cfgLocal ("") msgsTwoRecords =
      [Effect.mkdirP ("d"), Effect.fileAppend ("d/users.jsonl") ("1\n"),
       Effect.mkdirP ("d"), Effect.fileAppend ("d/users.jsonl") ("2\n"),
       Effect.putObject ("") ("") ("")] ∧
    runPutBodies extC cfgLocal ("") msgsTwoRecords ≠ [] := by
  refine ⟨by decide, ?_⟩
  decide

/-- Claim C7 (refuted — code bug): on an empty input the run should
complete with no destination artifact; the checkpoint is indeed `none` and
nothing is emitted on stdout, but the unconditional trailing `put_object`
still fires, attempting an object-storage write with empty body, bucket
and key (under `main`'s defaults boto3 rejects the empty bucket name, so
the real run crashes instead of completing). -/
theorem C7_empty_input_still_calls_put_object :
    persist_messages extC cfgDefault ("T") [] =
      .ok (none, { initState with effects := [Effect.putObject ("") ("") ("")] }) ∧
    emit_state extC none = [] ∧
    runPutBodies extC cfgDefault ("T") [] = [""] :=
  ⟨rfl, rfl, rfl⟩

end TargetJsonl
